import Mathlib

/-!
Verification development for the resource-manager / search-service core of the
dataplatform repository (src/core/resource_manager.py, src/core/search_service.py).

Embedding conventions:
* Python `str` is modelled as Lean `String`; string algorithms work on `List Char`
  (`String.data`).  Python `.lower()` / `.upper()` / `.title()` are modelled
  character-wise with `Char.toLower` / `Char.toUpper` (the repository only
  manipulates ASCII text).
* Python dicts used as keyed maps (`self.resources`, the on-disk directory of
  payload files) are modelled as insertion-ordered association lists with
  unique keys, with `dictInsert` / `dictRemove` reproducing dict assignment
  and `del` / `Path.unlink`.
* Timestamps (`datetime.now()`, ISO-8601 strings) are modelled as natural
  numbers counting seconds; ISO-8601 strings compare lexicographically exactly
  as their timestamps compare numerically, so both the `timedelta` arithmetic
  of the expiry sweep and the lexicographic date filters of the search service
  are modelled by numeric comparison.  `timedelta(hours = h)` is `h * 3600`.
* JSON documents (payloads written with `json.dump` and read back with
  `json.load`) are modelled by the inductive `Json`; "structurally equal"
  payloads are equal `Json` values.
-/

/-- A JSON document, as written by `json.dump` and read back by `json.load`. -/
inductive Json where
  | null : Json
  | bool (b : Bool) : Json
  | num (n : Int) : Json
  | str (s : String) : Json
  | arr (elems : List Json) : Json
  | obj (fields : List (String × Json)) : Json

/-- Character-wise lowercase, modelling Python `str.lower()` on ASCII text. -/
def lowerL (l : List Char) : List Char := l.map Char.toLower

/-- Character-wise uppercase, modelling Python `str.upper()` on ASCII text. -/
def upperL (l : List Char) : List Char := l.map Char.toUpper

/-- The whitespace characters recognised by Python `str.split()`. -/
def pySpace (c : Char) : Bool :=
  c = ' ' || c = '\t' || c = '\n' || c = '\x0d' || c = '\x0b' || c = '\x0c'

/-- Python `str.split()` (no separator argument): split on runs of whitespace,
dropping empty pieces.  `acc` holds the current word, reversed. -/
def splitWsAux : List Char → List Char → List (List Char)
  | [], acc => if acc.isEmpty then [] else [acc.reverse]
  | c :: cs, acc =>
    if pySpace c then
      if acc.isEmpty then splitWsAux cs [] else acc.reverse :: splitWsAux cs []
    else
      splitWsAux cs (c :: acc)

def splitWs (l : List Char) : List (List Char) := splitWsAux l []

/-- Boolean list-prefix test (needle, haystack). -/
def liPrefixB : List Char → List Char → Bool
  | [], _ => true
  | _ :: _, [] => false
  | a :: as, b :: bs => a = b && liPrefixB as bs

/-- Boolean substring test, modelling Python `needle in haystack` on strings. -/
def subB (needle : List Char) : List Char → Bool
  | [] => liPrefixB needle []
  | b :: bs => liPrefixB needle (b :: bs) || subB needle bs

/-- Python `"KEYWORD" in s.upper()` for an ASCII keyword. -/
def uContains (s : String) (kw : String) : Bool := subB kw.data (upperL s.data)

/-- Python `uri.split("/")[-1]`: the text after the final `'/'`
(the whole string when no `'/'` occurs). -/
def lastSegment (s : String) : String :=
  String.mk (s.data.foldl (fun acc c => if c = '/' then [] else acc ++ [c]) [])

/-- Python `str.title()` on ASCII text: a letter is uppercased when the
preceding character is not a letter, lowercased otherwise. -/
def pyTitleGo : Bool → List Char → List Char
  | _, [] => []
  | prevAlpha, c :: cs =>
    (if prevAlpha then c.toLower else c.toUpper) :: pyTitleGo c.isAlpha cs

def pyTitle (s : String) : String := String.mk (pyTitleGo false s.data)

/-!
`difflib.SequenceMatcher` (Python standard library), as used by
`SearchService._fuzzy_match` with `isjunk = None`.  The candidate words the
service compares are far shorter than 200 characters, so the `autojunk`
heuristic (which only activates for second sequences of length ≥ 200) never
marks any element junk; the algorithm below is the stdlib algorithm with the
junk machinery (vacuous here) elided.
-/

/-- Length of the longest common block of `a` and `b` ending at positions
`i`, `j` (the `j2len` recurrence of `find_longest_match`). -/
def lcsuf (a b : List Char) : Nat → Nat → Nat
  | 0, j =>
    match a[0]?, b[j]? with
    | some x, some y => if x = y then 1 else 0
    | _, _ => 0
  | i + 1, j =>
    match a[i + 1]?, b[j]? with
    | some x, some y =>
      if x = y then
        match j with
        | 0 => 1
        | j' + 1 => lcsuf a b i j' + 1
      else 0
    | _, _ => 0

/-- `find_longest_match` over the whole of `a` and `b`: the longest common
block, scanning end positions `i` ascending then `j` ascending and keeping
the first block of each strictly larger size — exactly difflib's
tie-breaking (earliest in `a`, then earliest in `b`).  With no junk the
subsequent block-extension loops of the stdlib cannot extend a maximal
block and are omitted.  Returns `(besti, bestj, bestsize)`. -/
def bestMatch (a b : List Char) : Nat × Nat × Nat :=
  ((List.range a.length).flatMap fun i =>
      (List.range b.length).map fun j => (i, j)).foldl
    (fun best ij =>
      let k := lcsuf a b ij.1 ij.2
      if k > best.2.2 then (ij.1 + 1 - k, ij.2 + 1 - k, k) else best)
    (0, 0, 0)

/-- Total size of all matching blocks (`get_matching_blocks`): recursively
split around the longest match.  `fuel` bounds the recursion depth; every
level strictly shrinks the sequences, so `a.length + b.length + 1` suffices. -/
def smTotalGo : Nat → List Char → List Char → Nat
  | 0, _, _ => 0
  | fuel + 1, a, b =>
    let m := bestMatch a b
    if m.2.2 = 0 then 0
    else
      smTotalGo fuel (a.take m.1) (b.take m.2.1) + m.2.2 +
        smTotalGo fuel (a.drop (m.1 + m.2.2)) (b.drop (m.2.1 + m.2.2))

def smTotal (a b : List Char) : Nat := smTotalGo (a.length + b.length + 1) a b

/-- `SequenceMatcher(None, a, b).ratio() >= 0.6`: the ratio is
`2 * M / (len a + len b)` (and `1.0` when both are empty), so the comparison
is `10 * M ≥ 3 * (len a + len b)` exactly. -/
def ratioGE06 (a b : List Char) : Bool :=
  decide (3 * (a.length + b.length) ≤ 10 * smTotal a b)

/-- `SearchService._fuzzy_match(text, query)` with the default threshold 0.6:
substring hit, else for each query word of length ≥ 3 and each text word,
mutual containment or similarity ≥ 0.6. -/
def fuzzy_match (text query : List Char) : Bool :=
  if subB query text then true
  else
    (splitWs query).any fun qw =>
      if qw.length < 3 then false
      else (splitWs text).any fun tw =>
        subB qw tw || subB tw qw || ratioGE06 qw tw

/-!
Data model of `ResourceManager` (src/core/resource_manager.py).
-/

/-- The `**type_specific_metadata` kwargs stored under the `"metadata"` key of a
record, one variant per resource type (the four `store_*` call sites). -/
inductive TypeMeta where
  | table (sql_query : String) (columns : List String) (row_count : Nat)
      (source_schema : Option String) : TypeMeta
  | chart (chart_type : String) : TypeMeta
  | ml (ml_type : String) : TypeMeta
  | schema (database_type : String) (table_count : Nat)
      (connection_string : String) : TypeMeta
deriving DecidableEq

/-- `type_metadata.get("sql_query", "")` as used by the search service. -/
def TypeMeta.sqlQueryOf : TypeMeta → String
  | .table q _ _ _ => q
  | _ => ""

/-- `type_metadata.get("columns", [])` as used by the search service. -/
def TypeMeta.columnsOf : TypeMeta → List String
  | .table _ cs _ _ => cs
  | _ => []

/-- A resource record, as built by `_create_enhanced_metadata`.  `created_at`,
`expires_at` and `last_accessed` are seconds-since-epoch timestamps standing
for the ISO strings of the source (order-isomorphic encoding). -/
structure ResMeta where
  uri : String
  type : String
  name : String
  description : String
  tags : List String
  category : String
  created_at : Nat
  expires_at : Nat
  access_count : Nat
  last_accessed : Option Nat
  tmeta : TypeMeta
deriving DecidableEq

/-- The `content` excerpt dict handed to the metadata generators.  Absent keys
are modelled by the default field values (matching every `content.get(k, d)`
in the generators: the stores always populate the keys of their own type, and
the defaults below are the generators' `.get` defaults). -/
structure Content where
  sql_query : String := ""
  columns : List String := []
  row_count : Nat := 0
  database_type : String := "unknown"
  tables : List String := []
  connection_string : String := ""
  chart_type : String := "unknown"
  ml_type : String := "unknown"
deriving DecidableEq

/-- The Python regex search `re.search(r'FROM\s+(\w+)', sql, re.IGNORECASE)`:
scan for the leftmost position with `from` (case-insensitive), at least one
whitespace character, then the captured maximal run of word characters. -/
def wordChar (c : Char) : Bool := c.isAlphanum || c = '_'

/-- At the current position: try to match `FROM\s+(\w+)` and return the
capture; the whitespace run is taken greedily (shorter runs cannot help since
a whitespace character is never a word character, so no backtracking). -/
def fromCaptureHere (l : List Char) : Option (List Char) :=
  if liPrefixB ['f', 'r', 'o', 'm'] (lowerL l) then
    let rest := l.drop 4
    let spaces := rest.takeWhile (fun c => c.isWhitespace)
    if spaces.isEmpty then none
    else
      let word := (rest.drop spaces.length).takeWhile wordChar
      if word.isEmpty then none else some word
  else none

def fromSearch : List Char → Option (List Char)
  | [] => none
  | c :: cs =>
    match fromCaptureHere (c :: cs) with
    | some w => some w
    | none => fromSearch cs

/-- The table-name extraction of `_generate_resource_name`: the guard
`"FROM" in sql.upper()` followed by the regex search (both must succeed). -/
def fromTableName (sql : String) : Option String :=
  if uContains sql "FROM" then (fromSearch sql.data).map String.mk else none

/-- `_generate_resource_name`. -/
def generate_resource_name (resource_type : String) (content : Content) : String :=
  if resource_type = "table" then
    if content.sql_query ≠ "" then
      match fromTableName content.sql_query with
      | some tname => pyTitle tname ++ " Query Results"
      | none =>
        if uContains content.sql_query "SELECT" then
          if uContains content.sql_query "COUNT" then "Count Query Results"
          else if uContains content.sql_query "SUM" || uContains content.sql_query "AVG" then
            "Aggregation Query Results"
          else "Data Query Results"
        else "Table Resource"
    else "Table Resource"
  else if resource_type = "schema" then
    pyTitle content.database_type ++ " Database Schema (" ++
      toString content.tables.length ++ " tables)"
  else if resource_type = "chart" then
    pyTitle content.chart_type ++ " Chart"
  else if resource_type = "ml" then
    pyTitle content.ml_type ++ " Model Results"
  else pyTitle resource_type ++ " Resource"

/-- `_generate_resource_description`.  `sql_query[:100]` is the first 100
characters with `"..."` appended when the query is longer. -/
def generate_resource_description (resource_type : String) (content : Content) : String :=
  if resource_type = "table" then
    let base := "Query results with " ++ toString content.row_count ++ " rows"
    let withCols :=
      if content.columns.isEmpty then base
      else
        let more :=
          if content.columns.length > 3 then
            " and " ++ toString (content.columns.length - 3) ++ " more"
          else ""
        base ++ " and " ++ toString content.columns.length ++ " columns: " ++
          String.intercalate ", " (content.columns.take 3) ++ more
    if content.sql_query ≠ "" then
      withCols ++ ". Generated from SQL: " ++ String.mk (content.sql_query.data.take 100) ++
        (if content.sql_query.data.length > 100 then "..." else "")
    else withCols
  else if resource_type = "schema" then
    let base := pyTitle content.database_type ++ " database schema with " ++
      toString content.tables.length ++ " tables"
    if content.tables.isEmpty then base
    else
      base ++ " including: " ++ String.intercalate ", " (content.tables.take 3) ++
        (if content.tables.length > 3 then
          " and " ++ toString (content.tables.length - 3) ++ " more"
        else "")
  else if resource_type = "chart" then
    pyTitle content.chart_type ++ " visualization chart"
  else if resource_type = "ml" then
    pyTitle content.ml_type ++ " machine learning model results"
  else pyTitle resource_type ++ " resource"

/-- `list(set(tags))` of the table branch.  CPython's set iteration order is
unspecified; the model keeps the first occurrence of each tag.  No claim
depends on the order of auto-derived tags (the spec declares tag order
irrelevant). -/
def pySetList (l : List String) : List String :=
  l.foldl (fun acc t => if acc.contains t then acc else acc ++ [t]) []

/-- `_generate_resource_tags`. -/
def generate_resource_tags (resource_type : String) (content : Content) : List String :=
  let tags := [resource_type]
  if resource_type = "table" then
    let sql := lowerL content.sql_query.data
    let cols := content.columns.map (fun c => lowerL c.data)
    let tags := tags ++ (if subB "select".data sql then ["query"] else [])
    let tags := tags ++ (if subB "join".data sql then ["join"] else [])
    let tags := tags ++ (if subB "group by".data sql then ["aggregation"] else [])
    let tags := tags ++ (if subB "order by".data sql then ["sorted"] else [])
    let tags := tags ++ (if subB "limit".data sql then ["limited"] else [])
    let tags := cols.foldl (fun tags col =>
      let tags := tags ++ (if subB "id".data col then ["identifier"] else [])
      let tags := tags ++ (if subB "name".data col then ["name"] else [])
      let tags := tags ++
        (if subB "date".data col || subB "time".data col then ["temporal"] else [])
      let tags := tags ++
        (if subB "amount".data col || subB "price".data col || subB "cost".data col then
          ["financial"] else [])
      tags ++ (if subB "count".data col || subB "total".data col then ["metrics"] else []))
      tags
    pySetList tags
  else if resource_type = "schema" then
    tags ++ [content.database_type, "schema"] ++
      (if content.tables.isEmpty then [] else ["structured"])
  else if resource_type = "chart" then
    tags ++ [content.chart_type, "visualization"]
  else if resource_type = "ml" then
    tags ++ [content.ml_type, "machine-learning"]
  else tags

/-- `_determine_resource_category`. -/
def determine_resource_category (resource_type : String) : String :=
  if resource_type = "schema" then "infrastructure"
  else if resource_type = "table" then "data"
  else if resource_type = "chart" then "visualization"
  else if resource_type = "ml" then "analytics"
  else "general"

/-- Python `custom or derived` on an optional string: `None` and `""` are
falsy and fall back to the derived value. -/
def pyOrStr (custom : Option String) (derived : String) : String :=
  match custom with
  | some s => if s = "" then derived else s
  | none => derived

/-- Python `custom or derived` on an optional list: `None` and `[]` are falsy. -/
def pyOrList (custom : Option (List String)) (derived : List String) : List String :=
  match custom with
  | some l => if l.isEmpty then derived else l
  | none => derived

/-- `_create_enhanced_metadata` (expiry window `expiry_hours`, clock `now`). -/
def create_enhanced_metadata (expiry_hours : Nat) (now : Nat) (uri : String)
    (resource_type : String) (content : Content)
    (custom_name custom_description : Option String)
    (custom_tags : Option (List String)) (custom_category : Option String)
    (tmeta : TypeMeta) : ResMeta :=
  { uri := uri
    type := resource_type
    name := pyOrStr custom_name (generate_resource_name resource_type content)
    description :=
      pyOrStr custom_description (generate_resource_description resource_type content)
    tags := pyOrList custom_tags (generate_resource_tags resource_type content)
    category := pyOrStr custom_category (determine_resource_category resource_type)
    created_at := now
    expires_at := now + expiry_hours * 3600
    access_count := 0
    last_accessed := none
    tmeta := tmeta }

/-!
The store state: the in-memory index `self.resources` and the payload files
under `self.storage_path`, both Python-dict-like keyed collections.
-/

/-- `d[k] = v` on an insertion-ordered dict: replace in place, else append. -/
def dictInsert (k : String) (v : α) : List (String × α) → List (String × α)
  | [] => [(k, v)]
  | (k', v') :: rest =>
    if k' = k then (k, v) :: rest else (k', v') :: dictInsert k v rest

/-- `del d[k]` / `Path.unlink` (also models the tolerated missing-target case:
removing an absent key is the identity). -/
def dictRemove (k : String) : List (String × α) → List (String × α)
  | [] => []
  | (k', v') :: rest => if k' = k then rest else (k', v') :: dictRemove k rest

/-- `ResourceManager` state.  `files` maps storage-relative paths (e.g.
`"tables/<id>.json"`) to the JSON document written there. -/
structure Store where
  resources : List (String × ResMeta)
  files : List (String × Json)
  expiry_hours : Nat
deriving Inhabited

/-- The payload path computed (identically) by `read_resource` and
`_delete_resource` from the record's type and the URI's last segment: schema
files keep the literal URI tail, every other type appends `.json`. -/
def resourcePath (resource_type : String) (uri : String) : String :=
  if resource_type = "schema" then "schemas/" ++ lastSegment uri
  else resource_type ++ "s/" ++ lastSegment uri ++ ".json"

/-- `store_table_resource`.  `resource_id` stands for the fresh `uuid4()`
token; `columns` and `row_count` are the `table_data.get(...)` excerpts the
source pulls out of the payload dict for metadata generation. -/
def store_table_resource (st : Store) (now : Nat) (resource_id : String)
    (table_data : Json) (columns : List String) (row_count : Nat) (sql_query : String)
    (name description : Option String) (tags : Option (List String))
    (category : Option String) (source_schema : Option String) : Store × String :=
  let uri := "resource://tables/" ++ resource_id
  let content : Content := { sql_query := sql_query, columns := columns, row_count := row_count }
  let meta := create_enhanced_metadata st.expiry_hours now uri "table" content
    name description tags category (.table sql_query columns row_count source_schema)
  ({ st with
      files := dictInsert ("tables/" ++ resource_id ++ ".json") table_data st.files
      resources := dictInsert uri meta st.resources }, uri)

/-- `store_chart_resource`. -/
def store_chart_resource (st : Store) (now : Nat) (resource_id : String)
    (chart_data : Json) (chart_type : String)
    (name description : Option String) (tags : Option (List String))
    (category : Option String) : Store × String :=
  let uri := "resource://charts/" ++ resource_id
  let content : Content := { chart_type := chart_type }
  let meta := create_enhanced_metadata st.expiry_hours now uri "chart" content
    name description tags category (.chart chart_type)
  ({ st with
      files := dictInsert ("charts/" ++ resource_id ++ ".json") chart_data st.files
      resources := dictInsert uri meta st.resources }, uri)

/-- `store_ml_resource`.  NOTE the source writes the payload under the
directory `ml/` (`f"ml/{resource_id}.json"`), not `mls/`. -/
def store_ml_resource (st : Store) (now : Nat) (resource_id : String)
    (ml_data : Json) (ml_type : String)
    (name description : Option String) (tags : Option (List String))
    (category : Option String) : Store × String :=
  let uri := "resource://ml/" ++ resource_id
  let content : Content := { ml_type := ml_type }
  let meta := create_enhanced_metadata st.expiry_hours now uri "ml" content
    name description tags category (.ml ml_type)
  ({ st with
      files := dictInsert ("ml/" ++ resource_id ++ ".json") ml_data st.files
      resources := dictInsert uri meta st.resources }, uri)

/-- The `internal_uri` computation of `store_schema_resource`.
`fresh_id` stands for the `uuid4()` token drawn in the empty-URI branch. -/
def schemaInternalUri (schema_uri : String) (fresh_id : String) : String :=
  if liPrefixB "mcp://".data schema_uri.data then
    "resource://schemas/" ++ lastSegment schema_uri ++ ".json"
  else if schema_uri = "" then "resource://schemas/" ++ fresh_id ++ ".json"
  else schema_uri

/-- `store_schema_resource`.  `database_type`, `table_names` and
`connection_string` are the `schema_data.get(...)` excerpts of the source
(`table_names` the keys of the `"tables"` dict). -/
def store_schema_resource (st : Store) (now : Nat) (fresh_id : String)
    (schema_data : Json) (schema_uri : String)
    (database_type : String) (table_names : List String) (connection_string : String)
    (name description : Option String) (tags : Option (List String))
    (category : Option String) : Store × String :=
  let internal_uri := schemaInternalUri schema_uri fresh_id
  let content : Content := { database_type := database_type, tables := table_names,
                             connection_string := connection_string }
  let meta := create_enhanced_metadata st.expiry_hours now internal_uri "schema" content
    name description tags category
    (.schema database_type table_names.length connection_string)
  ({ st with
      files := dictInsert ("schemas/" ++ lastSegment internal_uri) schema_data st.files
      resources := dictInsert internal_uri meta st.resources }, internal_uri)

/-- The outcome of `read_resource`: the two failure texts
(`"Resource not found: ..."` and `"Resource file not found: ..."`), the raw
`json.dumps` of the payload, or the type-specific human-readable rendering.
The `formatted` constructor carries the exact inputs of the `_format_*`
functions (resource type, payload, post-update record); no claim under
verification inspects the rendered markdown itself. -/
inductive ReadResult where
  | notFound (uri : String) : ReadResult
  | fileMissing (uri : String) : ReadResult
  | raw (payload : Json) : ReadResult
  | formatted (resource_type : String) (payload : Json) (meta : ResMeta) : ReadResult

/-- `read_resource`.  Access tracking (`access_count + 1`,
`last_accessed = now`) happens as soon as the URI is found in the index,
before the payload file is looked up. -/
def read_resource (st : Store) (now : Nat) (uri : String) (raw : Bool) :
    Store × ReadResult :=
  match st.resources.lookup uri with
  | none => (st, .notFound uri)
  | some m =>
    let m' := { m with access_count := m.access_count + 1, last_accessed := some now }
    let st' := { st with resources := dictInsert uri m' st.resources }
    match st'.files.lookup (resourcePath m.type uri) with
    | none => (st', .fileMissing uri)
    | some data =>
      if raw then (st', .raw data) else (st', .formatted m.type data m')

/-- `_delete_resource`: no-op when the URI is absent; otherwise remove the
backing file (tolerating a missing file) and the index entry. -/
def delete_resource (st : Store) (uri : String) : Store :=
  match st.resources.lookup uri with
  | none => st
  | some m =>
    { st with
        files := dictRemove (resourcePath m.type uri) st.files
        resources := dictRemove uri st.resources }

/-- `_cleanup_expired_resources`: collect the URIs whose age strictly exceeds
the TTL (`now - created > timedelta(hours = expiry_hours)`), then delete each.
Natural subtraction matches the source: a record created in the future has a
negative age in Python and is likewise never expired here. -/
def cleanup_expired_resources (st : Store) (now : Nat) : Store :=
  let expired := (st.resources.filter
    (fun p => decide (st.expiry_hours * 3600 < now - p.2.created_at))).map Prod.fst
  expired.foldl delete_resource st

/-- One entry of the `list_resources` output. -/
structure ListedResource where
  uri : String
  name : String
  description : String
  mimeType : String
deriving DecidableEq

/-- `list_resources`: sweep expired records first, then one entry per
surviving record with the tag/category-enriched description. -/
def list_resources (st : Store) (now : Nat) : Store × List ListedResource :=
  let st' := cleanup_expired_resources st now
  (st', st'.resources.map fun p =>
    { uri := p.1
      name := p.2.name
      description := p.2.description ++ " | Category: " ++ p.2.category ++
        " | Tags: " ++ String.intercalate ", " p.2.tags
      mimeType := "application/json" })

/-!
`SearchService` (src/core/search_service.py).
-/

/-- The keyword parameters of `search_resources`.  `none` models the `None`
defaults; Python truthiness additionally treats a supplied empty string or
empty list as "filter absent" (see `strTruthy` / `listTruthy`).  Date bounds
are timestamps standing for the ISO strings compared lexicographically by the
source (an order-isomorphic encoding). -/
structure Criteria where
  query : Option String := none
  tags : Option (List String) := none
  any_tags : Option (List String) := none
  category : Option String := none
  resource_type : Option String := none
  created_after : Option Nat := none
  created_before : Option Nat := none
  min_access_count : Nat := 0
  limit : Int := 50
  sort_by : String := "created_at"
  sort_order : String := "desc"
deriving DecidableEq

/-- Python truthiness of an optional string parameter. -/
def strTruthy : Option String → Bool
  | none => false
  | some s => !(s = "")

/-- Python truthiness of an optional list parameter. -/
def listTruthy : Option (List String) → Bool
  | none => false
  | some l => !l.isEmpty

/-- `_matches_text_query`: fuzzy-match the lowercased query against name,
description, each tag and, for table records, the stored SQL text and each
column name. -/
def matches_text_query (m : ResMeta) (query : String) : Bool :=
  let q := lowerL query.data
  fuzzy_match (lowerL m.name.data) q ||
  fuzzy_match (lowerL m.description.data) q ||
  (m.tags.map fun t => lowerL t.data).any (fun t => fuzzy_match t q) ||
  fuzzy_match (lowerL m.tmeta.sqlQueryOf.data) q ||
  (m.tmeta.columnsOf.map fun c => lowerL c.data).any (fun c => fuzzy_match c q)

/-- `if param: if not check: return False` for an optional timestamp
parameter: pass when the parameter is absent, else run the check. -/
def natGuard (o : Option Nat) (f : Nat → Bool) : Bool :=
  match o with
  | some t => f t
  | none => true

/-- `_matches_criteria`: every supplied filter must pass. -/
def matches_criteria (m : ResMeta) (c : Criteria) : Bool :=
  (if strTruthy c.query then matches_text_query m (c.query.getD "") else true) &&
  (if listTruthy c.tags then (c.tags.getD []).all (fun t => m.tags.contains t) else true) &&
  (if listTruthy c.any_tags then (c.any_tags.getD []).any (fun t => m.tags.contains t)
   else true) &&
  (if strTruthy c.category then decide (m.category = c.category.getD "") else true) &&
  (if strTruthy c.resource_type then decide (m.type = c.resource_type.getD "") else true) &&
  natGuard c.created_after (fun t => decide (¬ m.created_at < t)) &&
  natGuard c.created_before (fun t => decide (¬ t < m.created_at)) &&
  (if 0 < c.min_access_count then decide (c.min_access_count ≤ m.access_count) else true)

/-- `last_accessed` sort key: `None` sorts as the empty string, i.e. before
every timestamp. -/
def lastAccessedLE : Option Nat → Option Nat → Bool
  | none, _ => true
  | some _, none => false
  | some a, some b => decide (a ≤ b)

/-- `metadata.get(sort_by, "")` for the fallback branch of `get_sort_key`,
restricted to the string-valued record fields; any other key sorts with a
constant key (no claim exercises this branch). -/
def metaGetStr (m : ResMeta) (k : String) : String :=
  if k = "uri" then m.uri
  else if k = "type" then m.type
  else if k = "description" then m.description
  else if k = "category" then m.category
  else ""

/-- The `key=get_sort_key` comparison of `_sort_results`, as a boolean
less-or-equal on `(uri, metadata)` pairs. -/
def sortKeyLE (sort_by : String) (p q : String × ResMeta) : Bool :=
  if sort_by = "created_at" then decide (p.2.created_at ≤ q.2.created_at)
  else if sort_by = "name" then
    decide (String.mk (lowerL p.2.name.data) ≤ String.mk (lowerL q.2.name.data))
  else if sort_by = "access_count" then decide (p.2.access_count ≤ q.2.access_count)
  else if sort_by = "last_accessed" then lastAccessedLE p.2.last_accessed q.2.last_accessed
  else decide (metaGetStr p.2 sort_by ≤ metaGetStr q.2 sort_by)

/-- Stable insertion (new element goes after every element it is `le`-below or
tied with), building the stable sort `stableSort`: for a total boolean
comparison every stable sort computes the same list, so this models Python's
stable `sorted`. -/
def insertLE (le : α → α → Bool) (x : α) : List α → List α
  | [] => [x]
  | y :: ys => if le y x then y :: insertLE le x ys else x :: y :: ys

def stableSort (le : α → α → Bool) (l : List α) : List α :=
  l.foldl (fun acc x => insertLE le x acc) []

/-- `_sort_results`: Python `sorted` is a stable sort; `reverse=True` sorts
descending while keeping equal keys in their original order, which is the
stable sort over the flipped comparison. -/
def sort_results (l : List (String × ResMeta)) (sort_by sort_order : String) :
    List (String × ResMeta) :=
  if String.mk (lowerL sort_order.data) = "desc" then
    stableSort (fun p q => sortKeyLE sort_by q p) l
  else
    stableSort (sortKeyLE sort_by) l

/-- One formatted entry of the search results.  `search_score` is
`item.get("search_score", 0)`: the pipeline never sets the key, so it is 0. -/
structure ResultEntry where
  uri : String
  name : String
  description : String
  tags : List String
  category : String
  type : String
  created_at : Nat
  access_count : Nat
  last_accessed : Option Nat
  search_score : Nat
deriving DecidableEq

def formatEntry (p : String × ResMeta) : ResultEntry :=
  { uri := p.1
    name := p.2.name
    description := p.2.description
    tags := p.2.tags
    category := p.2.category
    type := p.2.type
    created_at := p.2.created_at
    access_count := p.2.access_count
    last_accessed := p.2.last_accessed
    search_score := 0 }

/-- The result dict of `search_resources`.  `search_criteria` echoes the
supplied criteria (the source copies only the supplied entries into a dict);
`status` is `"completed"` on the non-exception path modelled here. -/
structure SearchOutput where
  results : List ResultEntry
  total_count : Nat
  search_criteria : Criteria
  status : String

/-- `search_resources`: filter the index, sort, truncate when `limit > 0`,
format, and report `total_count = len(results)`. -/
def search_resources (st : Store) (c : Criteria) : SearchOutput :=
  let filtered := st.resources.filter (fun p => matches_criteria p.2 c)
  let sorted := sort_results filtered c.sort_by c.sort_order
  let limited := if 0 < c.limit then sorted.take c.limit.toNat else sorted
  let results := limited.map formatEntry
  { results := results
    total_count := results.length
    search_criteria := c
    status := "completed" }

/-!
Association-list dictionary lemmas.
-/

theorem lookup_cons_ne {β : Type _} {k a : String} {b : β} {es : List (String × β)}
    (h : a ≠ k) : ((k, b) :: es).lookup a = es.lookup a := by
  rw [List.lookup_cons, beq_eq_false_iff_ne.mpr h]

theorem lookup_dictInsert_self (k : String) (v : α) (l : List (String × α)) :
    (dictInsert k v l).lookup k = some v := by
  induction l with
  | nil => simp [dictInsert]
  | cons p rest ih =>
    obtain ⟨pk, pv⟩ := p
    by_cases h : pk = k
    · simp [dictInsert, h]
    · rw [dictInsert, if_neg h, lookup_cons_ne (Ne.symm h)]
      exact ih

theorem lookup_dictInsert_ne (k : String) (v : α) (l : List (String × α))
    (u : String) (h : u ≠ k) : (dictInsert k v l).lookup u = l.lookup u := by
  induction l with
  | nil => simp [dictInsert, lookup_cons_ne h]
  | cons p rest ih =>
    obtain ⟨pk, pv⟩ := p
    by_cases hp : pk = k
    · subst hp
      rw [dictInsert, if_pos rfl, lookup_cons_ne h, lookup_cons_ne h]
    · by_cases hu : u = pk
      · subst hu
        rw [dictInsert, if_neg hp, List.lookup_cons_self, List.lookup_cons_self]
      · rw [dictInsert, if_neg hp, lookup_cons_ne hu, lookup_cons_ne hu]
        exact ih

theorem dictRemove_of_lookup_none (k : String) (l : List (String × α))
    (h : l.lookup k = none) : dictRemove k l = l := by
  induction l with
  | nil => rfl
  | cons p rest ih =>
    obtain ⟨pk, pv⟩ := p
    by_cases hp : k = pk
    · rw [hp, List.lookup_cons_self] at h
      exact absurd h (by simp)
    · rw [lookup_cons_ne hp] at h
      rw [dictRemove, if_neg (Ne.symm hp), ih h]

theorem lookup_dictRemove_ne (k : String) (l : List (String × α))
    (u : String) (h : u ≠ k) : (dictRemove k l).lookup u = l.lookup u := by
  induction l with
  | nil => rfl
  | cons p rest ih =>
    obtain ⟨pk, pv⟩ := p
    by_cases hp : pk = k
    · subst hp
      rw [dictRemove, if_pos rfl, lookup_cons_ne h]
    · by_cases hu : u = pk
      · subst hu
        rw [dictRemove, if_neg hp, List.lookup_cons_self, List.lookup_cons_self]
      · rw [dictRemove, if_neg hp, lookup_cons_ne hu, lookup_cons_ne hu]
        exact ih

theorem lookup_dictRemove_self (k : String) (l : List (String × α))
    (h : (l.map Prod.fst).Nodup) : (dictRemove k l).lookup k = none := by
  induction l with
  | nil => rfl
  | cons p rest ih =>
    obtain ⟨pk, pv⟩ := p
    simp only [List.map_cons, List.nodup_cons] at h
    by_cases hp : pk = k
    · subst hp
      rw [dictRemove, if_pos rfl, List.lookup_eq_none_iff]
      intro q hq
      simp only [bne_iff_ne, ne_eq]
      intro hqk
      exact h.1 (hqk ▸ List.mem_map_of_mem Prod.fst hq)
    · rw [dictRemove, if_neg hp, lookup_cons_ne (Ne.symm hp)]
      exact ih h.2

theorem lookup_dictRemove_none (k u : String) (l : List (String × α))
    (h : l.lookup u = none) : (dictRemove k l).lookup u = none := by
  induction l with
  | nil => rfl
  | cons p rest ih =>
    obtain ⟨pk, pv⟩ := p
    by_cases hu : u = pk
    · rw [hu, List.lookup_cons_self] at h
      exact absurd h (by simp)
    · rw [lookup_cons_ne hu] at h
      by_cases hp : pk = k
      · rw [dictRemove, if_pos hp]
        exact h
      · rw [dictRemove, if_neg hp, lookup_cons_ne hu]
        exact ih h

theorem dictRemove_keys_sublist (k : String) (l : List (String × α)) :
    ((dictRemove k l).map Prod.fst).Sublist (l.map Prod.fst) := by
  induction l with
  | nil => simp [dictRemove]
  | cons p rest ih =>
    obtain ⟨pk, pv⟩ := p
    by_cases hp : pk = k
    · simp [dictRemove, hp]
    · simpa [dictRemove, hp] using ih.cons₂ pk

theorem dictRemove_keys_nodup (k : String) (l : List (String × α))
    (h : (l.map Prod.fst).Nodup) : ((dictRemove k l).map Prod.fst).Nodup :=
  h.sublist (dictRemove_keys_sublist k l)

/-!
Substring characterization: `subB needle hay` decides Python `needle in hay`,
i.e. the existence of a decomposition `hay = p ++ needle ++ t`.
-/

theorem liPrefixB_iff {a b : List Char} : liPrefixB a b = true ↔ ∃ t, b = a ++ t := by
  induction a generalizing b with
  | nil => simp [liPrefixB]
  | cons x xs ih =>
    cases b with
    | nil =>
      simp only [liPrefixB, List.cons_append]
      constructor
      · intro h
        exact absurd h (by simp)
      · rintro ⟨t, ht⟩
        exact absurd ht (by simp)
    | cons y ys =>
      simp only [liPrefixB, Bool.and_eq_true, decide_eq_true_eq, ih, List.cons_append,
        List.cons.injEq]
      constructor
      · rintro ⟨rfl, t, rfl⟩
        exact ⟨t, rfl, rfl⟩
      · rintro ⟨t, rfl, rfl⟩
        exact ⟨rfl, t, rfl⟩

theorem subB_iff {n h : List Char} : subB n h = true ↔ ∃ p t, h = p ++ n ++ t := by
  induction h with
  | nil =>
    simp only [subB, liPrefixB_iff]
    constructor
    · rintro ⟨t, ht⟩
      exact ⟨[], t, ht⟩
    · rintro ⟨p, t, ht⟩
      cases p with
      | nil => exact ⟨t, by simpa using ht⟩
      | cons _ _ => exact absurd ht (by simp)
  | cons b bs ih =>
    simp only [subB, Bool.or_eq_true, liPrefixB_iff, ih]
    constructor
    · rintro (⟨t, ht⟩ | ⟨p, t, ht⟩)
      · exact ⟨[], t, by simpa using ht⟩
      · exact ⟨b :: p, t, by simp [ht]⟩
    · rintro ⟨p, t, ht⟩
      cases p with
      | nil => exact Or.inl ⟨t, by simpa using ht⟩
      | cons q qs =>
        right
        simp only [List.cons_append, List.cons.injEq] at ht
        exact ⟨qs, t, ht.2⟩

/-!
Concrete sample data used by the claim instances.
-/

def emptyStore : Store := { resources := [], files := [], expiry_hours := 24 }

def tblPayload : Json :=
  .obj [("columns", .arr [.str "id"]), ("row_count", .num 2),
        ("data", .arr [.obj [("id", .num 1)], .obj [("id", .num 2)]])]

def chartPayload : Json := .obj [("labels", .arr [.str "a"]), ("values", .arr [.num 3])]

def mlPayload : Json := .obj [("model", .str "linreg"), ("r2", .num 1)]

def schemaPayload : Json := .obj [("database_type", .str "postgresql")]

/-- A table record whose name contains `"User"`. -/
def mUser : ResMeta :=
  { uri := "resource://tables/u1", type := "table", name := "User Query Results",
    description := "Query results with 2 rows", tags := ["table", "query"],
    category := "data", created_at := 100, expires_at := 86500, access_count := 0,
    last_accessed := none, tmeta := .table "SELECT id FROM users" ["id"] 2 none }

/-- A table record with no content related to the query `"xyz123"`. -/
def mSales : ResMeta :=
  { uri := "resource://tables/s1", type := "table", name := "sales report",
    description := "monthly revenue summary", tags := ["table", "query"],
    category := "data", created_at := 200, expires_at := 86600, access_count := 0,
    last_accessed := none,
    tmeta := .table "select region from orders" ["region", "total"] 10 none }

def searchStore : Store :=
  { resources := [("resource://tables/u1", mUser), ("resource://tables/s1", mSales)],
    files := [], expiry_hours := 24 }

/-!
Claim theorems.
-/

/-- C1 (code_bug): for table, chart and schema resources, `store` followed
immediately by `read(uri, raw=true)` returns a payload structurally equal to
the stored payload; for ML resources it cannot — `store_ml_resource` writes
the payload under `ml/<id>.json` while `read_resource` resolves
`f"{resource_type}s/..."` = `mls/<id>.json`, so the raw read of a
freshly-stored ML resource reports a missing payload file instead of the
payload. -/
theorem C1_roundtrip_raw_read :
    ((read_resource (store_table_resource emptyStore 0 "t1" tblPayload ["id"] 2
        "SELECT id FROM users" none none none none none).1 1
        "resource://tables/t1" true).2 = .raw tblPayload) ∧
    ((read_resource (store_chart_resource emptyStore 0 "c1" chartPayload "bar"
        none none none none).1 1 "resource://charts/c1" true).2 = .raw chartPayload) ∧
    ((read_resource (store_schema_resource emptyStore 0 "s1" schemaPayload
        "mcp://db/main" "postgresql" ["users"] "pg://local" none none none none).1 1
        "resource://schemas/main.json" true).2 = .raw schemaPayload) ∧
    ((read_resource (store_schema_resource emptyStore 0 "s2" schemaPayload
        "resource://schemas/custom.json" "postgresql" ["users"] "pg://local"
        none none none none).1 1
        "resource://schemas/custom.json" true).2 = .raw schemaPayload) ∧
    ((read_resource (store_ml_resource emptyStore 0 "m1" mlPayload "regression"
        none none none none).1 1 "resource://ml/m1" true).2
      = .fileMissing "resource://ml/m1") :=
  ⟨rfl, rfl, rfl, rfl, rfl⟩

/-- The index component of `_delete_resource` is plain key removal: when the
URI is absent both sides are the identity, otherwise the entry is removed. -/
theorem delete_resource_resources (st : Store) (u : String) :
    (delete_resource st u).resources = dictRemove u st.resources := by
  unfold delete_resource
  cases h : st.resources.lookup u with
  | none => exact (dictRemove_of_lookup_none u st.resources h).symm
  | some m => rfl

theorem delete_resource_expiry (st : Store) (u : String) :
    (delete_resource st u).expiry_hours = st.expiry_hours := by
  unfold delete_resource
  cases h : st.resources.lookup u with
  | none => rfl
  | some m => rfl

/-- C2: after `delete(uri)` the URI is absent from the index and a subsequent
`read(uri)` — raw or formatted — returns the `NotFound` result and leaves the
state unchanged (a total, non-crashing outcome). -/
theorem C2_delete_then_read_not_found (st : Store) (now : Nat) (u : String) (raw : Bool)
    (hnd : (st.resources.map Prod.fst).Nodup) :
    (delete_resource st u).resources.lookup u = none ∧
    read_resource (delete_resource st u) now u raw =
      (delete_resource st u, .notFound u) := by
  have habs : (delete_resource st u).resources.lookup u = none := by
    rw [delete_resource_resources]
    exact lookup_dictRemove_self u st.resources hnd
  refine ⟨habs, ?_⟩
  unfold read_resource
  rw [habs]

/-- C2 witness: a concrete store-delete-read run. -/
theorem C2_delete_then_read_not_found_witness :
    ((searchStore.resources.map Prod.fst).Nodup) ∧
    ((delete_resource searchStore "resource://tables/u1").resources.lookup
        "resource://tables/u1" = none ∧
      read_resource (delete_resource searchStore "resource://tables/u1") 7
          "resource://tables/u1" true =
        (delete_resource searchStore "resource://tables/u1",
          .notFound "resource://tables/u1")) :=
  ⟨by decide,
   C2_delete_then_read_not_found searchStore 7 "resource://tables/u1" true (by decide)⟩

/-- C10: `total_count` always equals the length of the returned (truncated)
results list; in the concrete store of two matching records searched with
`limit = 1` the reported `total_count` is 1 even though two records matched
the criteria before truncation. -/
theorem C10_total_count_is_truncated_length :
    (∀ st c, (search_resources st c).total_count = (search_resources st c).results.length) ∧
    (search_resources searchStore { limit := 1 }).total_count = 1 ∧
    (searchStore.resources.filter
        (fun p => matches_criteria p.2 { limit := 1 })).length = 2 :=
  ⟨fun _ _ => rfl, by decide, by decide⟩

/-- C7 counterexample: a caller-supplied *empty* name (and empty tags list) is
falsy in `custom_name or derived`, so the committed record carries the derived
values, not the supplied ones — the claim's unconditional "always overrides"
fails. -/
theorem C7_counterexample_empty_override_ignored :
    (((store_chart_resource emptyStore 0 "c9" chartPayload "bar"
        (some "") none (some []) none).1.resources.lookup
        "resource://charts/c9").map ResMeta.name = some "Bar Chart") ∧
    (((store_chart_resource emptyStore 0 "c9" chartPayload "bar"
        (some "") none (some []) none).1.resources.lookup
        "resource://charts/c9").map ResMeta.tags =
      some ["chart", "bar", "visualization"]) ∧
    ("Bar Chart" ≠ "") ∧ (["chart", "bar", "visualization"] ≠ ([] : List String)) := by
  refine ⟨by decide, by decide, by decide, by decide⟩

/-- C7 (amended): a caller-supplied non-empty name, description, tags list or
category always replaces the auto-derived value wholesale (no merging), while
an absent or empty (Python-falsy) supplied value falls back to the derived
value. -/
theorem C7_custom_overrides_derived (eh now : Nat) (uri ty : String) (content : Content)
    (n d : Option String) (tg : Option (List String)) (cat : Option String)
    (tm : TypeMeta) :
    (∀ s, n = some s → s ≠ "" →
      (create_enhanced_metadata eh now uri ty content n d tg cat tm).name = s) ∧
    (n = none ∨ n = some "" →
      (create_enhanced_metadata eh now uri ty content n d tg cat tm).name =
        generate_resource_name ty content) ∧
    (∀ s, d = some s → s ≠ "" →
      (create_enhanced_metadata eh now uri ty content n d tg cat tm).description = s) ∧
    (d = none ∨ d = some "" →
      (create_enhanced_metadata eh now uri ty content n d tg cat tm).description =
        generate_resource_description ty content) ∧
    (∀ l, tg = some l → l ≠ [] →
      (create_enhanced_metadata eh now uri ty content n d tg cat tm).tags = l) ∧
    (tg = none ∨ tg = some [] →
      (create_enhanced_metadata eh now uri ty content n d tg cat tm).tags =
        generate_resource_tags ty content) ∧
    (∀ s, cat = some s → s ≠ "" →
      (create_enhanced_metadata eh now uri ty content n d tg cat tm).category = s) ∧
    (cat = none ∨ cat = some "" →
      (create_enhanced_metadata eh now uri ty content n d tg cat tm).category =
        determine_resource_category ty) := by
  refine ⟨?_, ?_, ?_, ?_, ?_, ?_, ?_, ?_⟩
  · rintro s rfl hne
    simp [create_enhanced_metadata, pyOrStr, hne]
  · rintro (rfl | rfl) <;> simp [create_enhanced_metadata, pyOrStr]
  · rintro s rfl hne
    simp [create_enhanced_metadata, pyOrStr, hne]
  · rintro (rfl | rfl) <;> simp [create_enhanced_metadata, pyOrStr]
  · rintro l rfl hne
    simp [create_enhanced_metadata, pyOrList, List.isEmpty_iff, hne]
  · rintro (rfl | rfl) <;> simp [create_enhanced_metadata, pyOrList]
  · rintro s rfl hne
    simp [create_enhanced_metadata, pyOrStr, hne]
  · rintro (rfl | rfl) <;> simp [create_enhanced_metadata, pyOrStr]

/-- C7 witness: concrete override and fallback instances. -/
theorem C7_custom_overrides_derived_witness :
    (create_enhanced_metadata 24 0 "u" "chart" { chart_type := "bar" }
      (some "Custom") (some "Desc") (some ["t"]) (some "cat") (.chart "bar")).name
      = "Custom" ∧
    (create_enhanced_metadata 24 0 "u" "chart" { chart_type := "bar" }
      none none none none (.chart "bar")).tags =
      generate_resource_tags "chart" { chart_type := "bar" } :=
  ⟨(C7_custom_overrides_derived 24 0 "u" "chart" { chart_type := "bar" }
      (some "Custom") (some "Desc") (some ["t"]) (some "cat") (.chart "bar")).1
      "Custom" rfl (by decide),
   (C7_custom_overrides_derived 24 0 "u" "chart" { chart_type := "bar" }
      none none none none (.chart "bar")).2.2.2.2.2.1 (Or.inl rfl)⟩

/-- Folding the last-segment scanner over slash-free text appends it to the
accumulator. -/
theorem foldl_lastSeg_no_slash (l acc : List Char) (h : ∀ c ∈ l, c ≠ '/') :
    l.foldl (fun acc c => if c = '/' then [] else acc ++ [c]) acc = acc ++ l := by
  induction l generalizing acc with
  | nil => simp
  | cons c cs ih =>
    have hc : c ≠ '/' := h c (List.mem_cons_self c cs)
    simp only [List.foldl_cons, if_neg hc]
    rw [ih (acc ++ [c]) (fun x hx => h x (List.mem_cons_of_mem c hx))]
    simp

/-- `split("/")[-1]` of `pre ++ id` is `id` when the scan of `pre` ends right
after a `'/'` and `id` contains none. -/
theorem lastSegment_concat (pre id : String)
    (hpre : pre.data.foldl (fun acc c => if c = '/' then [] else acc ++ [c]) [] = [])
    (h : ∀ c ∈ id.data, c ≠ '/') : lastSegment (pre ++ id) = id := by
  unfold lastSegment
  rw [String.data_append, List.foldl_append, hpre, foldl_lastSeg_no_slash id.data [] h]
  rfl

/-- C9: the payload path shared by `read_resource` and `_delete_resource`
uses the literal URI tail for schema resources (no `.json` re-appended) and
appends `.json` to the identifier for every other type; `store_schema_resource`
writes its payload at exactly that path for the returned URI, and the table
and chart stores do the same for their fresh identifiers; `store_ml_resource`
likewise appends `.json` to the identifier (under its `ml/` directory); and
`_delete_resource` removes exactly the file at the shared path. -/
theorem C9_schema_tail_vs_json_suffix :
    (∀ u, resourcePath "schema" u = "schemas/" ++ lastSegment u) ∧
    (∀ ty u, ty ≠ "schema" →
      resourcePath ty u = ty ++ "s/" ++ lastSegment u ++ ".json") ∧
    (∀ st now fid sd suri dbt tns conn n d tg cat,
      (store_schema_resource st now fid sd suri dbt tns conn n d tg cat).1.files.lookup
        (resourcePath "schema"
          (store_schema_resource st now fid sd suri dbt tns conn n d tg cat).2)
        = some sd) ∧
    (∀ st now id td cols rc sq n d tg cat ss, (∀ c ∈ id.data, c ≠ '/') →
      (store_table_resource st now id td cols rc sq n d tg cat ss).1.files.lookup
        (resourcePath "table"
          (store_table_resource st now id td cols rc sq n d tg cat ss).2)
        = some td) ∧
    (∀ st now id cd cty n d tg cat, (∀ c ∈ id.data, c ≠ '/') →
      (store_chart_resource st now id cd cty n d tg cat).1.files.lookup
        (resourcePath "chart"
          (store_chart_resource st now id cd cty n d tg cat).2)
        = some cd) ∧
    (∀ st now id md mty n d tg cat,
      (store_ml_resource st now id md mty n d tg cat).1.files.lookup
        ("ml/" ++ id ++ ".json") = some md) ∧
    (∀ st u m, st.resources.lookup u = some m →
      (delete_resource st u).files = dictRemove (resourcePath m.type u) st.files) := by
  have hschema : ∀ u, resourcePath "schema" u = "schemas/" ++ lastSegment u := by
    intro u
    simp [resourcePath]
  refine ⟨hschema, ?_, ?_, ?_, ?_, ?_, ?_⟩
  · intro ty u h
    simp [resourcePath, h]
  · intro st now fid sd suri dbt tns conn n d tg cat
    simp only [store_schema_resource, hschema]
    exact lookup_dictInsert_self _ _ _
  · intro st now id td cols rc sq n d tg cat ss hid
    have hseg : lastSegment ("resource://tables/" ++ id) = id :=
      lastSegment_concat "resource://tables/" id (by decide) hid
    simp only [store_table_resource, resourcePath, hseg]
    have hkey : ("table" ++ "s/" ++ id ++ ".json" : String) =
        ("tables/" ++ id ++ ".json" : String) := by
      apply String.ext
      simp
    rw [if_neg (by decide : ¬ ("table" : String) = "schema"), hkey]
    exact lookup_dictInsert_self _ _ _
  · intro st now id cd cty n d tg cat hid
    have hseg : lastSegment ("resource://charts/" ++ id) = id :=
      lastSegment_concat "resource://charts/" id (by decide) hid
    simp only [store_chart_resource, resourcePath, hseg]
    have hkey : ("chart" ++ "s/" ++ id ++ ".json" : String) =
        ("charts/" ++ id ++ ".json" : String) := by
      apply String.ext
      simp
    rw [if_neg (by decide : ¬ ("chart" : String) = "schema"), hkey]
    exact lookup_dictInsert_self _ _ _
  · intro st now id md mty n d tg cat
    simp only [store_ml_resource]
    exact lookup_dictInsert_self _ _ _
  · intro st u m hm
    unfold delete_resource
    rw [hm]

/-- C9 witness: concrete instances of every conjunct. -/
theorem C9_schema_tail_vs_json_suffix_witness :
    resourcePath "schema" "resource://schemas/main.json" =
      "schemas/" ++ lastSegment "resource://schemas/main.json" ∧
    resourcePath "table" "resource://tables/t1" =
      "table" ++ "s/" ++ lastSegment "resource://tables/t1" ++ ".json" ∧
    (store_table_resource emptyStore 0 "t1" tblPayload ["id"] 2 "SELECT 1"
        none none none none none).1.files.lookup
      (resourcePath "table"
        (store_table_resource emptyStore 0 "t1" tblPayload ["id"] 2 "SELECT 1"
          none none none none none).2) = some tblPayload := by
  refine ⟨(C9_schema_tail_vs_json_suffix).1 "resource://schemas/main.json",
    (C9_schema_tail_vs_json_suffix).2.1 "table" "resource://tables/t1" (by decide),
    (C9_schema_tail_vs_json_suffix).2.2.2.1 emptyStore 0 "t1" tblPayload ["id"] 2
      "SELECT 1" none none none none none (by decide)⟩

/-- C8 counterexample: a non-empty query with no FROM-identifier match and no
SELECT keyword (`"UPDATE widgets SET price = 2"`) is named `"Table Resource"`
by the code, while the claim's classification (no COUNT/SUM/AVG present)
requires `"Data Query Results"`. -/
theorem C8_counterexample_update_query :
    generate_resource_name "table" { sql_query := "UPDATE widgets SET price = 2" } =
      "Table Resource" ∧
    uContains "UPDATE widgets SET price = 2" "FROM" = false ∧
    uContains "UPDATE widgets SET price = 2" "COUNT" = false ∧
    uContains "UPDATE widgets SET price = 2" "SUM" = false ∧
    uContains "UPDATE widgets SET price = 2" "AVG" = false ∧
    "Table Resource" ≠ "Data Query Results" := by
  refine ⟨by decide, by decide, by decide, by decide, by decide, by decide⟩

/-- C8 (amended): auto-derived table names — a `FROM`-clause identifier match
yields `"<TableName (title-cased)> Query Results"`; with no such match the
COUNT / SUM / AVG classification applies only when the query also contains
`SELECT` (case-insensitive); a non-empty query with neither a FROM match nor
SELECT, and an absent query text, both yield `"Table Resource"`. -/
theorem C8_table_name_derivation (c : Content) :
    (c.sql_query = "" → generate_resource_name "table" c = "Table Resource") ∧
    (∀ t, c.sql_query ≠ "" → fromTableName c.sql_query = some t →
      generate_resource_name "table" c = pyTitle t ++ " Query Results") ∧
    (c.sql_query ≠ "" → fromTableName c.sql_query = none →
      uContains c.sql_query "SELECT" = true → uContains c.sql_query "COUNT" = true →
      generate_resource_name "table" c = "Count Query Results") ∧
    (c.sql_query ≠ "" → fromTableName c.sql_query = none →
      uContains c.sql_query "SELECT" = true → uContains c.sql_query "COUNT" = false →
      (uContains c.sql_query "SUM" = true ∨ uContains c.sql_query "AVG" = true) →
      generate_resource_name "table" c = "Aggregation Query Results") ∧
    (c.sql_query ≠ "" → fromTableName c.sql_query = none →
      uContains c.sql_query "SELECT" = true → uContains c.sql_query "COUNT" = false →
      uContains c.sql_query "SUM" = false → uContains c.sql_query "AVG" = false →
      generate_resource_name "table" c = "Data Query Results") ∧
    (c.sql_query ≠ "" → fromTableName c.sql_query = none →
      uContains c.sql_query "SELECT" = false →
      generate_resource_name "table" c = "Table Resource") := by
  refine ⟨?_, ?_, ?_, ?_, ?_, ?_⟩
  · intro h
    simp [generate_resource_name, h]
  · intro t hne hm
    simp [generate_resource_name, hne, hm]
  · intro hne hm hsel hcnt
    simp [generate_resource_name, hne, hm, hsel, hcnt]
  · rintro hne hm hsel hcnt (hs | ha)
    · simp [generate_resource_name, hne, hm, hsel, hcnt, hs]
    · simp [generate_resource_name, hne, hm, hsel, hcnt, ha]
  · intro hne hm hsel hcnt hs ha
    simp [generate_resource_name, hne, hm, hsel, hcnt, hs, ha]
  · intro hne hm hsel
    simp [generate_resource_name, hne, hm, hsel]

/-- C8 witness: the four concrete shapes. -/
theorem C8_table_name_derivation_witness :
    generate_resource_name "table" { sql_query := "" } = "Table Resource" ∧
    generate_resource_name "table"
      { sql_query := "SELECT id, name FROM widgets GROUP BY name" } =
      pyTitle "widgets" ++ " Query Results" ∧
    generate_resource_name "table" { sql_query := "SELECT COUNT(*) AS n" } =
      "Count Query Results" ∧
    generate_resource_name "table" { sql_query := "UPDATE widgets SET price = 2" } =
      "Table Resource" :=
  ⟨(C8_table_name_derivation { sql_query := "" }).1 rfl,
   (C8_table_name_derivation
      { sql_query := "SELECT id, name FROM widgets GROUP BY name" }).2.1 "widgets"
      (by decide) (by decide),
   (C8_table_name_derivation { sql_query := "SELECT COUNT(*) AS n" }).2.2.1
      (by decide) (by decide) (by decide) (by decide),
   (C8_table_name_derivation { sql_query := "UPDATE widgets SET price = 2" }).2.2.2.2.2
      (by decide) (by decide) (by decide)⟩

/-!
Lemmas for the expiry sweep (C3).
-/

theorem lookup_mem {l : List (String × α)} {u : String} {v : α}
    (h : l.lookup u = some v) : (u, v) ∈ l := by
  rcases List.lookup_eq_some_iff.1 h with ⟨l₁, l₂, rfl, -⟩
  simp

theorem mem_lookup {l : List (String × α)} {u : String} {v : α}
    (hnd : (l.map Prod.fst).Nodup) (h : (u, v) ∈ l) : l.lookup u = some v := by
  induction l with
  | nil => cases h
  | cons p rest ih =>
    simp only [List.map_cons, List.nodup_cons] at hnd
    rcases List.mem_cons.1 h with rfl | hmem
    · exact List.lookup_cons_self
    · have hne : u ≠ p.1 := fun he =>
        hnd.1 (List.mem_map.2 ⟨(u, v), hmem, he⟩)
      obtain ⟨pk, pv⟩ := p
      rw [lookup_cons_ne hne]
      exact ih hnd.2 hmem

theorem foldl_delete_resources (L : List String) (st : Store) :
    (L.foldl delete_resource st).resources =
      L.foldl (fun r u => dictRemove u r) st.resources := by
  induction L generalizing st with
  | nil => rfl
  | cons u us ih =>
    rw [List.foldl_cons, List.foldl_cons, ih, delete_resource_resources]

theorem lookup_foldl_dictRemove_none (L : List String) (l : List (String × α))
    (u : String) (h : l.lookup u = none) :
    (L.foldl (fun r k => dictRemove k r) l).lookup u = none := by
  induction L generalizing l with
  | nil => exact h
  | cons k ks ih => exact ih _ (lookup_dictRemove_none k u l h)

theorem foldl_dictRemove_keys_nodup (L : List String) (l : List (String × α))
    (h : (l.map Prod.fst).Nodup) :
    ((L.foldl (fun r k => dictRemove k r) l).map Prod.fst).Nodup := by
  induction L generalizing l with
  | nil => exact h
  | cons k ks ih => exact ih _ (dictRemove_keys_nodup k l h)

theorem lookup_foldl_dictRemove_mem (L : List String) (l : List (String × α))
    (u : String) (hnd : (l.map Prod.fst).Nodup) (hu : u ∈ L) :
    (L.foldl (fun r k => dictRemove k r) l).lookup u = none := by
  induction L generalizing l with
  | nil => cases hu
  | cons k ks ih =>
    rcases List.mem_cons.1 hu with rfl | hmem
    · exact lookup_foldl_dictRemove_none ks _ u (lookup_dictRemove_self u l hnd)
    · exact ih _ (dictRemove_keys_nodup k l hnd) hmem

theorem lookup_foldl_dictRemove_not_mem (L : List String) (l : List (String × α))
    (u : String) (hu : u ∉ L) :
    (L.foldl (fun r k => dictRemove k r) l).lookup u = l.lookup u := by
  induction L generalizing l with
  | nil => rfl
  | cons k ks ih =>
    rw [List.foldl_cons, ih _ (fun hm => hu (List.mem_cons_of_mem k hm)),
      lookup_dictRemove_ne k l u (fun he => hu (he ▸ List.mem_cons_self k ks))]

/-- The record created at `now - TTL - 1s`. -/
def mOld : ResMeta :=
  { uri := "resource://tables/old1", type := "table", name := "Old",
    description := "old record", tags := ["table"], category := "data",
    created_at := 0, expires_at := 86400, access_count := 0, last_accessed := none,
    tmeta := .table "" [] 0 none }

/-- The record created at `now`. -/
def mNew : ResMeta :=
  { uri := "resource://tables/new1", type := "table", name := "New",
    description := "new record", tags := ["table"], category := "data",
    created_at := 86401, expires_at := 172801, access_count := 0, last_accessed := none,
    tmeta := .table "" [] 0 none }

def expiryStore : Store :=
  { resources := [("resource://tables/old1", mOld), ("resource://tables/new1", mNew)],
    files := [("tables/old1.json", Json.null), ("tables/new1.json", Json.null)],
    expiry_hours := 24 }

/-- C3: the sweep run at the start of `list()` deletes exactly the records
whose age strictly exceeds the TTL: a record survives the sweep iff it was
present and `now - created_at ≤ TTL`; concretely, at `now = 86401` with a
24-hour TTL, the record created at `0 = now - TTL - 1s` is absent from the
`list()` output and a subsequent `read()` of it returns `NotFound`, while the
record created at `now` survives. -/
theorem C3_expiry_sweep :
    (∀ st now u m, ((st.resources.map Prod.fst).Nodup) →
      ((cleanup_expired_resources st now).resources.lookup u = some m ↔
        st.resources.lookup u = some m ∧
          now - m.created_at ≤ st.expiry_hours * 3600)) ∧
    (list_resources expiryStore 86401).2.map ListedResource.uri =
      ["resource://tables/new1"] ∧
    (read_resource (list_resources expiryStore 86401).1 86401
        "resource://tables/old1" true).2 = .notFound "resource://tables/old1" ∧
    (list_resources expiryStore 86401).1.resources.lookup "resource://tables/new1" =
      some mNew := by
  refine ⟨?_, by decide, rfl, by decide⟩
  intro st now u m hnd
  unfold cleanup_expired_resources
  rw [foldl_delete_resources]
  by_cases hu : u ∈ (st.resources.filter
      (fun p => decide (st.expiry_hours * 3600 < now - p.2.created_at))).map Prod.fst
  · rw [lookup_foldl_dictRemove_mem _ _ _ hnd hu]
    refine iff_of_false (by simp) ?_
    rintro ⟨hlk, hle⟩
    rcases List.mem_map.1 hu with ⟨p, hp, hpu⟩
    rcases List.mem_filter.1 hp with ⟨hpl, hP⟩
    have h1 : st.resources.lookup p.1 = some p.2 := mem_lookup hnd hpl
    rw [hpu, hlk] at h1
    have h2 : m = p.2 := by injection h1
    rw [← h2] at hP
    exact absurd hle (Nat.not_le.2 (of_decide_eq_true hP))
  · rw [lookup_foldl_dictRemove_not_mem _ _ _ hu]
    constructor
    · intro hlk
      refine ⟨hlk, ?_⟩
      by_contra hgt
      exact hu (List.mem_map.2 ⟨(u, m), List.mem_filter.2 ⟨lookup_mem hlk,
        by simpa using Nat.lt_of_not_le hgt⟩, rfl⟩)
    · exact fun h => h.1

/-- C3 witness: the sweep equivalence applied to a concrete store. -/
theorem C3_expiry_sweep_witness :
    ((expiryStore.resources.map Prod.fst).Nodup) ∧
    ((cleanup_expired_resources expiryStore 86401).resources.lookup
        "resource://tables/new1" = some mNew ↔
      expiryStore.resources.lookup "resource://tables/new1" = some mNew ∧
        86401 - mNew.created_at ≤ expiryStore.expiry_hours * 3600) :=
  ⟨by decide, C3_expiry_sweep.1 expiryStore 86401 "resource://tables/new1" mNew (by decide)⟩

/-!
Access tracking (C4).
-/

/-- A record present in the index but with no backing payload file (exactly
the orphan situation the spec's index invariant tolerates). -/
def mOrphan : ResMeta :=
  { uri := "resource://tables/o1", type := "table", name := "Orphan",
    description := "orphan record", tags := ["table"], category := "data",
    created_at := 0, expires_at := 86400, access_count := 0, last_accessed := none,
    tmeta := .table "" [] 0 none }

def orphanStore : Store :=
  { resources := [("resource://tables/o1", mOrphan)], files := [], expiry_hours := 24 }

/-- C4 counterexample: a read that fails with the payload-missing result still
increments `access_count` and sets `last_accessed` (the tracking update runs
before the file lookup), so a failed read does not leave the record unchanged. -/
theorem C4_counterexample_payload_missing_read_mutates :
    (read_resource orphanStore 5 "resource://tables/o1" true).2 =
      .fileMissing "resource://tables/o1" ∧
    (read_resource orphanStore 5 "resource://tables/o1" true).1.resources.lookup
        "resource://tables/o1" =
      some { mOrphan with access_count := 1, last_accessed := some 5 } ∧
    mOrphan.access_count = 0 ∧ mOrphan.last_accessed = none :=
  ⟨rfl, by decide, by decide, by decide⟩

/-- Whenever the URI is present in the index, `read_resource` commits the
access-tracking update — regardless of whether the payload file exists or the
read is raw. -/
theorem read_resource_state (st : Store) (now : Nat) (u : String) (raw : Bool)
    (m : ResMeta) (hm : st.resources.lookup u = some m) :
    (read_resource st now u raw).1 =
      { st with resources := (dictInsert u
          { m with access_count := m.access_count + 1, last_accessed := some now }
          st.resources) } := by
  simp only [read_resource, hm]
  split
  · rfl
  · split <;> rfl

theorem getLast?_or_cons (t : Nat) (ts : List Nat) :
    (t :: ts).getLast? = ts.getLast?.or (some t) := by
  induction ts generalizing t with
  | nil => rfl
  | cons h l ih =>
    rw [List.getLast?_cons_cons, ih h]
    cases hl : l.getLast? <;> rfl

/-- C4 (amended): a read of a URI present in the index always increments its
`access_count` by one and sets `last_accessed` to the read time — including
reads that fail because the payload file is missing; a read of an absent URI
returns `NotFound` and leaves the state untouched; consequently a sequence of
reads at times `ts` of an indexed URI adds `ts.length` to `access_count` and
leaves `last_accessed` at the final read time (so it is non-decreasing
whenever the clock is). -/
theorem C4_access_tracking (st : Store) :
    (∀ now u raw m, st.resources.lookup u = some m →
      (read_resource st now u raw).1.resources.lookup u =
        some { m with access_count := m.access_count + 1,
                      last_accessed := some now }) ∧
    (∀ now u raw, st.resources.lookup u = none →
      read_resource st now u raw = (st, .notFound u)) ∧
    (∀ (ts : List Nat) u m, st.resources.lookup u = some m →
      (ts.foldl (fun s t => (read_resource s t u true).1) st).resources.lookup u =
        some { m with access_count := m.access_count + ts.length,
                      last_accessed := ts.getLast?.or m.last_accessed }) := by
  refine ⟨?_, ?_, ?_⟩
  · intro now u raw m hm
    rw [read_resource_state st now u raw m hm]
    exact lookup_dictInsert_self _ _ _
  · intro now u raw h
    unfold read_resource
    rw [h]
  · intro ts
    induction ts generalizing st with
    | nil =>
      intro u m hm
      simpa using hm
    | cons t ts ih =>
      intro u m hm
      rw [List.foldl_cons, read_resource_state st t u true m hm]
      have step := ih { st with resources := (dictInsert u
          { m with access_count := m.access_count + 1, last_accessed := some t }
          st.resources) } u
          { m with access_count := m.access_count + 1, last_accessed := some t }
          (lookup_dictInsert_self _ _ _)
      rw [step]
      congr 1
      rw [getLast?_or_cons]
      cases hg : ts.getLast? <;> simp [Nat.add_assoc, Nat.add_comm 1 ts.length]

/-- C4 witness: three reads of a concrete record at times 3, 5, 9. -/
theorem C4_access_tracking_witness :
    (searchStore.resources.lookup "resource://tables/u1" = some mUser) ∧
    (([3, 5, 9] : List Nat).foldl
        (fun s t => (read_resource s t "resource://tables/u1" true).1)
        searchStore).resources.lookup "resource://tables/u1" =
      some { mUser with access_count := mUser.access_count + 3,
                        last_accessed := ([3, 5, 9] : List Nat).getLast?.or
                          mUser.last_accessed } :=
  ⟨by decide,
   (C4_access_tracking searchStore).2.2 [3, 5, 9] "resource://tables/u1" mUser (by decide)⟩

/-!
Search filter conjunction (C5).
-/

theorem guard_query_iff (m : ResMeta) (o : Option String) :
    ((if strTruthy o then matches_text_query m (o.getD "") else true) = true ↔
      ∀ q, o = some q → q ≠ "" → matches_text_query m q = true) := by
  cases o with
  | none => simp [strTruthy]
  | some s =>
    by_cases hs : s = ""
    · subst hs
      simp [strTruthy]
    · simp [strTruthy, hs]

theorem guard_cat_iff (v : String) (o : Option String) :
    ((if strTruthy o then decide (v = o.getD "") else true) = true ↔
      ∀ x, o = some x → x ≠ "" → v = x) := by
  cases o with
  | none => simp [strTruthy]
  | some s =>
    by_cases hs : s = ""
    · subst hs
      simp [strTruthy]
    · simp [strTruthy, hs]

theorem guard_all_iff (tags : List String) (o : Option (List String)) :
    ((if listTruthy o then (o.getD []).all (fun t => tags.contains t) else true) = true ↔
      ∀ l, o = some l → ∀ t ∈ l, t ∈ tags) := by
  cases o with
  | none => simp [listTruthy]
  | some l =>
    cases l with
    | nil => simp [listTruthy]
    | cons x xs =>
      simp [listTruthy, List.all_eq_true, List.contains_eq_any_beq, List.any_eq_true,
        beq_iff_eq]

theorem guard_any_iff (tags : List String) (o : Option (List String)) :
    ((if listTruthy o then (o.getD []).any (fun t => tags.contains t) else true) = true ↔
      ∀ l, o = some l → l ≠ [] → ∃ t ∈ l, t ∈ tags) := by
  cases o with
  | none => simp [listTruthy]
  | some l =>
    cases l with
    | nil => simp [listTruthy]
    | cons x xs =>
      simp [listTruthy, List.any_eq_true, List.contains_eq_any_beq, beq_iff_eq]

theorem natGuard_iff (o : Option Nat) (f : Nat → Bool) :
    (natGuard o f = true ↔ ∀ t, o = some t → f t = true) := by
  cases o <;> simp [natGuard]

theorem guard_min_iff (v n : Nat) :
    ((if 0 < n then decide (n ≤ v) else true) = true ↔ (0 < n → n ≤ v)) := by
  by_cases h : 0 < n <;> simp [h]

theorem mem_insertLE (le : α → α → Bool) (x a : α) (l : List α) :
    a ∈ insertLE le x l ↔ a = x ∨ a ∈ l := by
  induction l with
  | nil => simp [insertLE]
  | cons y ys ih =>
    by_cases h : le y x = true
    · simp [insertLE, h, ih]
      tauto
    · simp [insertLE, h]

theorem mem_stableSort (le : α → α → Bool) (l : List α) (a : α) :
    a ∈ stableSort le l ↔ a ∈ l := by
  suffices h : ∀ acc, a ∈ l.foldl (fun acc x => insertLE le x acc) acc ↔
      a ∈ acc ∨ a ∈ l by
    simpa [stableSort] using h []
  induction l with
  | nil => simp
  | cons x xs ih =>
    intro acc
    rw [List.foldl_cons, ih (insertLE le x acc)]
    simp [mem_insertLE]
    tauto

theorem mem_sort_results (l : List (String × ResMeta)) (sb so : String)
    (p : String × ResMeta) : p ∈ sort_results l sb so ↔ p ∈ l := by
  unfold sort_results
  by_cases h : String.mk (lowerL so.data) = "desc" <;> simp [h, mem_stableSort]

/-- C5: all supplied filters are ANDed — a record passes `_matches_criteria`
iff it satisfies every supplied criterion; every returned search result comes
from an index record that passed all criteria; and in particular a record
matching a supplied category but failing a simultaneously supplied type
filter is excluded. -/
theorem C5_filters_conjoined :
    (∀ m c, matches_criteria m c = true ↔
      ((∀ q, c.query = some q → q ≠ "" → matches_text_query m q = true) ∧
       (∀ l, c.tags = some l → ∀ t ∈ l, t ∈ m.tags) ∧
       (∀ l, c.any_tags = some l → l ≠ [] → ∃ t ∈ l, t ∈ m.tags) ∧
       (∀ x, c.category = some x → x ≠ "" → m.category = x) ∧
       (∀ x, c.resource_type = some x → x ≠ "" → m.type = x) ∧
       (∀ t, c.created_after = some t → t ≤ m.created_at) ∧
       (∀ t, c.created_before = some t → m.created_at ≤ t) ∧
       (0 < c.min_access_count → c.min_access_count ≤ m.access_count))) ∧
    (∀ st c p, p ∈ (search_resources st c).results →
      ∃ u mm, (u, mm) ∈ st.resources ∧ matches_criteria mm c = true ∧
        p = formatEntry (u, mm)) ∧
    (∀ m c x y, c.category = some x → x ≠ "" → m.category = x →
      c.resource_type = some y → y ≠ "" → m.type ≠ y →
      matches_criteria m c = false) := by
  have hiff : ∀ m c, matches_criteria m c = true ↔
      ((∀ q, c.query = some q → q ≠ "" → matches_text_query m q = true) ∧
       (∀ l, c.tags = some l → ∀ t ∈ l, t ∈ m.tags) ∧
       (∀ l, c.any_tags = some l → l ≠ [] → ∃ t ∈ l, t ∈ m.tags) ∧
       (∀ x, c.category = some x → x ≠ "" → m.category = x) ∧
       (∀ x, c.resource_type = some x → x ≠ "" → m.type = x) ∧
       (∀ t, c.created_after = some t → t ≤ m.created_at) ∧
       (∀ t, c.created_before = some t → m.created_at ≤ t) ∧
       (0 < c.min_access_count → c.min_access_count ≤ m.access_count)) := by
    intro m c
    unfold matches_criteria
    simp only [Bool.and_eq_true, guard_query_iff, guard_all_iff, guard_any_iff,
      guard_cat_iff, natGuard_iff, guard_min_iff, decide_eq_true_eq, Nat.not_lt,
      and_assoc]
  refine ⟨hiff, ?_, ?_⟩
  · intro st c p hp
    simp only [search_resources, List.mem_map] at hp
    rcases hp with ⟨pr, hpr, rfl⟩
    have hsorted : pr ∈ sort_results
        (st.resources.filter (fun p => matches_criteria p.2 c)) c.sort_by c.sort_order := by
      by_cases hl : 0 < c.limit
      · rw [if_pos hl] at hpr
        exact List.take_subset _ _ hpr
      · rwa [if_neg hl] at hpr
    have hfil := (mem_sort_results _ _ _ _).1 hsorted
    rcases List.mem_filter.1 hfil with ⟨hmem, hmc⟩
    exact ⟨pr.1, pr.2, hmem, hmc, rfl⟩
  · intro m c x y hcx hxne hmx hcy hyne hmty
    cases hmc : matches_criteria m c with
    | false => rfl
    | true => exact absurd (((hiff m c).1 hmc).2.2.2.2.1 y hcy hyne) hmty

/-- C5 witness: a record with category `"data"` and type `"table"` is excluded
by the combined filters `category="data", type="chart"`, and the corresponding
search returns nothing. -/
theorem C5_filters_conjoined_witness :
    matches_criteria mUser
      { category := some "data", resource_type := some "chart" } = false ∧
    mUser.category = "data" ∧ mUser.type ≠ "chart" :=
  ⟨C5_filters_conjoined.2.2 mUser
      { category := some "data", resource_type := some "chart" } "data" "chart"
      rfl (by decide) (by decide) rfl (by decide) (by decide),
   by decide, by decide⟩

set_option maxRecDepth 4000 in
set_option maxHeartbeats 1000000 in
/-- C6: `_fuzzy_match` succeeds exactly when the query is a substring of the
candidate text, or some whitespace-delimited query word of length ≥ 3 and some
text word contain one another or have SequenceMatcher similarity ≥ 0.6;
concretely, the query `"usr"` matches the record named `"User Query Results"`
and `"xyz123"` does not match a record of unrelated content in any field. -/
theorem C6_fuzzy_match_characterization :
    (∀ text query : List Char,
      fuzzy_match text query = true ↔
        ((∃ p t, text = p ++ query ++ t) ∨
          ∃ qw ∈ splitWs query, 3 ≤ qw.length ∧ ∃ tw ∈ splitWs text,
            ((∃ p t, tw = p ++ qw ++ t) ∨ (∃ p t, qw = p ++ tw ++ t) ∨
              ratioGE06 qw tw = true))) ∧
    matches_text_query mUser "usr" = true ∧
    matches_text_query mSales "xyz123" = false := by
  refine ⟨?_, by decide, by decide⟩
  intro text query
  unfold fuzzy_match
  by_cases hsub : subB query text = true
  · rw [if_pos hsub]
    simp only [true_iff]
    exact Or.inl (subB_iff.1 hsub)
  · rw [if_neg hsub, List.any_eq_true]
    constructor
    · rintro ⟨qw, hqw, hcond⟩
      by_cases hlen : qw.length < 3
      · rw [if_pos hlen] at hcond
        exact absurd hcond (by simp)
      · rw [if_neg hlen, List.any_eq_true] at hcond
        rcases hcond with ⟨tw, htw, hor⟩
        refine Or.inr ⟨qw, hqw, Nat.not_lt.1 hlen, tw, htw, ?_⟩
        simp only [Bool.or_eq_true] at hor
        rcases hor with (h | h) | h
        · exact Or.inl (subB_iff.1 h)
        · exact Or.inr (Or.inl (subB_iff.1 h))
        · exact Or.inr (Or.inr h)
    · rintro (⟨p, t, rfl⟩ | ⟨qw, hqw, hlen, tw, htw, hcase⟩)
      · exact absurd (subB_iff.2 ⟨p, t, rfl⟩) hsub
      · refine ⟨qw, hqw, ?_⟩
        rw [if_neg (Nat.not_lt.2 hlen), List.any_eq_true]
        refine ⟨tw, htw, ?_⟩
        simp only [Bool.or_eq_true]
        rcases hcase with h | h | h
        · exact Or.inl (Or.inl (subB_iff.2 h))
        · exact Or.inl (Or.inr (subB_iff.2 h))
        · exact Or.inr h
